import Mathlib

/-!
Verification of the mood_drift mini-game runtime.

Shallow embedding of `src/types.ts`, `src/components/MiniGames.tsx` and the
config-generation service.  Each React component is modelled as an explicit
state machine: the mutable `gameStateRef` / `useState` cells become fields of
a state structure, and the render-loop callback, interval tick and input
handlers become pure step functions.  JavaScript numbers are modelled as
exact rationals (the claims under study involve only exact arithmetic),
scores and lives as integers.  Every `onGameOver(v)` invocation is recorded
by appending `v` to a `calls` list, so "at most once" claims become claims
about the length of that list.
-/

namespace MoodDrift

/-- From `types.ts`: the three game types. -/
inductive GameType
  | clicker
  | catcher
  | memory
deriving DecidableEq, Repr

/-- From `types.ts`: `ThemeConfig`, five colour strings. -/
structure ThemeConfig where
  primary : String
  secondary : String
  background : String
  text : String
  accent : String
deriving DecidableEq, Repr

/-- From `types.ts`: `GameParameters`, speed and difficulty scales. -/
structure GameParameters where
  speed : ℚ
  difficulty : ℚ
deriving DecidableEq, Repr

/-- From `types.ts`: `GameConfig`, the shared contract consumed by every
mini-game. -/
structure GameConfig where
  gameType : GameType
  title : String
  description : String
  instructions : String
  theme : ThemeConfig
  assets : List String
  parameters : GameParameters
deriving DecidableEq, Repr

/-! ## Config generation (`geminiService.ts`) -/

/-- The fixed fallback configuration returned by `generateGameForMood` on any
failure, copied field by field from the catch branch of the source (the asset
strings are the literal characters stored in the source file). -/
def fallbackConfig : GameConfig where
  gameType := .clicker
  title := "Mood Popper"
  description := "Pop the bubbles to clear your mind."
  instructions := "Click the floating circles!"
  theme := ⟨"#3B82F6", "#60A5FA", "#EFF6FF", "#1E3A8A", "#2563EB"⟩
  assets := ["‚ú®", "üíß", "‚òÅÔ∏è", "üíô", "‚≠ê"]
  parameters := ⟨5, 5⟩

/-- Outcome of the external `ai.models.generateContent` call: either the call
threw, or it resolved with a response whose `text` field may be absent. -/
inductive GenResult
  | failure (msg : String)
  | response (text : Option String)
deriving DecidableEq, Repr

/-- From `geminiService.ts`: `generateGameForMood`.  The external call and
`JSON.parse` are the only impure parts; they are passed in as the `result`
value and the `parse` function.  The body mirrors the try/catch: a thrown
call, an absent `response.text`, an empty text (falsy in JavaScript, hence
the explicit `throw`), or a parse failure all land in the catch branch and
return `fallbackConfig`; a parsed config is returned as is.  The `mood`
string only feeds the prompt, so it does not influence the control flow. -/
def generateGameForMood (mood : String) (result : GenResult)
    (parse : String → Option GameConfig) : GameConfig :=
  match result with
  | .failure _ => fallbackConfig
  | .response none => fallbackConfig
  | .response (some text) =>
    if text = "" then fallbackConfig
    else
      match parse text with
      | none => fallbackConfig
      | some config => config

/-! ## Spawn cadences -/

/-- JavaScript `Math.max` on two numbers: the larger argument.  (Stated with
an explicit comparison so that concrete states evaluate inside the kernel;
`jsMax_eq_max` below identifies it with `max`.) -/
def jsMax {α : Type} [LT α] [DecidableRel ((· < ·) : α → α → Prop)] (a b : α) : α :=
  if a < b then b else a

/-- From `MiniGames.tsx` line 51: `Math.max(200, 1000 - (config.parameters.speed * 80))`. -/
def clickerSpawnRate (speed : ℚ) : ℚ := jsMax 200 (1000 - speed * 80)

/-- From `MiniGames.tsx` line 229: `Math.max(300, 1500 - (speedBase * 100))`. -/
def catcherSpawnRate (speed : ℚ) : ℚ := jsMax 300 (1500 - speed * 100)

/-- The spec formula for the Clicker cadence: `max(200, 1000 - 80 x speed)`. -/
def clickerSpawnRateSpec (speed : ℚ) : ℚ := jsMax 200 (1000 - 80 * speed)

/-- The spec formula for the Catcher cadence: `max(300, 1500 - 100 x speed)`. -/
def catcherSpawnRateSpec (speed : ℚ) : ℚ := jsMax 300 (1500 - 100 * speed)

/-- From `MiniGames.tsx` line 60 and 237:
`config.assets[Math.floor(Math.random() * config.assets.length)]` where the
random draw `u` lies in `[0,1)`.  An out-of-range index (only possible for an
empty asset list, where the index is `NaN`) yields `undefined`, modelled as
the empty string. -/
def assetPick (assets : List String) (u : ℚ) : String :=
  assets.getD (⌊u * (assets.length : ℚ)⌋.toNat) ""

/-! ## Clicker (`ClickerGame`) -/

/-- An entry of `gameStateRef.current.entities` in `ClickerGame`. -/
structure ClickerEntity where
  id : ℕ
  x : ℚ
  y : ℚ
  r : ℚ
  asset : String
  life : ℚ
  maxLife : ℚ
deriving DecidableEq, Repr

/-- The mutable session state of `ClickerGame`: the `gameStateRef` fields,
the reactive `timeLeft` cell, whether the 1-second interval is still
installed, the `spawnId` counter, the recorded `onGameOver` invocations and
the received config. -/
structure ClickerState where
  entities : List ClickerEntity
  lastSpawn : ℚ
  isRunning : Bool
  score : ℤ
  timeLeft : ℕ
  timerActive : Bool
  nextId : ℕ
  calls : List ℤ
  config : GameConfig
deriving DecidableEq, Repr

/-- Initial `ClickerGame` state on mount. -/
def clickerInit (config : GameConfig) : ClickerState where
  entities := []
  lastSpawn := 0
  isRunning := true
  score := 0
  timeLeft := 30
  timerActive := true
  nextId := 0
  calls := []
  config := config

/-- From `MiniGames.tsx` lines 140-141: the hit test
`Math.sqrt((x - ent.x) ** 2 + (y - ent.y) ** 2) < ent.r`, rewritten without
the square root: for a nonnegative radicand, `sqrt d < r` holds exactly when
`0 < r` and `d < r ^ 2`. -/
def clickHits (x y : ℚ) (e : ClickerEntity) : Bool :=
  decide (0 < e.r ∧ (x - e.x) ^ 2 + (y - e.y) ^ 2 < e.r ^ 2)

/-- The `entities.forEach` loop of `handleClick` (lines 139-148), including
the JavaScript `forEach`/`splice` interaction: removing the element at the
current index shifts the next element into that index, and the iteration
counter has already moved past it, so the element immediately after a
removed one is never visited.  Returns the surviving entities and the number
of removals (each removal added 10 to the score in the source). -/
def clickScan (hit : ClickerEntity → Bool) : List ClickerEntity → List ClickerEntity × ℕ
  | [] => ([], 0)
  | a :: rest =>
    if hit a then
      match rest with
      | [] => ([], 1)
      | b :: rest2 =>
        let p := clickScan hit rest2
        (b :: p.1, p.2 + 1)
    else
      let p := clickScan hit rest
      (a :: p.1, p.2)

/-- From `MiniGames.tsx` lines 120-149: `handleClick`.  Guarded by
`isRunning`; each hit adds 10 points and removes the entity. -/
def handleClick (x y : ℚ) (s : ClickerState) : ClickerState :=
  if s.isRunning then
    let p := clickScan (clickHits x y) s.entities
    { s with entities := p.1, score := s.score + 10 * p.2 }
  else s

/-- From `MiniGames.tsx` lines 67-93, the per-entity update of the render
loop: grow the radius towards 40 by `2 * speedMultiplier`, decay the life by
`1 * speedMultiplier`. -/
def entUpdate (mult : ℚ) (e : ClickerEntity) : ClickerEntity :=
  { e with
    r := if e.r < 40 then e.r + 2 * mult else e.r
    life := e.life - mult }

/-- The `entities.forEach` loop of the render callback (lines 67-93): update
each visited entity and remove it when its life has dropped to 0 or below.
The same `forEach`/`splice` interaction applies: the element immediately
after a removed one is skipped (left unmodified) for this frame. -/
def frameScan (mult : ℚ) : List ClickerEntity → List ClickerEntity
  | [] => []
  | a :: rest =>
    let a1 := entUpdate mult a
    if a1.life ≤ 0 then
      match rest with
      | [] => []
      | b :: rest2 => b :: frameScan mult rest2
    else a1 :: frameScan mult rest

/-- Random draws consumed by one Clicker spawn: the radius draw, the asset
draw and the two position draws, each in `[0,1)`. -/
structure SpawnRnd where
  r : ℚ
  a : ℚ
  x : ℚ
  y : ℚ
deriving DecidableEq, Repr

/-- From `MiniGames.tsx` lines 41-96: one invocation of the `render`
callback of `ClickerGame` at timestamp `time` on a canvas of size `w x h`.
It returns immediately when `isRunning` is false; otherwise it spawns a new
entity when `time - lastSpawn` exceeds the spawn rate and then runs the
entity update loop.  Drawing calls have no effect on the session state and
are omitted. -/
def clickerFrame (w h time : ℚ) (rnd : SpawnRnd) (s : ClickerState) : ClickerState :=
  if s.isRunning then
    let mult := s.config.parameters.speed / 5
    let s1 :=
      if clickerSpawnRate s.config.parameters.speed < time - s.lastSpawn then
        let radius := rnd.r * 30 + 30
        { s with
          lastSpawn := time
          entities := s.entities ++
            [⟨s.nextId, rnd.x * (w - radius * 2) + radius,
              rnd.y * (h - radius * 2) + radius, 0,
              assetPick s.config.assets rnd.a, 100, 100⟩]
          nextId := s.nextId + 1 }
      else s
    { s1 with entities := frameScan mult s1.entities }
  else s

/-- From `MiniGames.tsx` lines 101-111: one tick of the 1-second interval.
When the displayed time is about to reach 0 the game stops, the interval is
cleared (`timerActive := false`) and `onGameOver` is invoked with the
accumulated score. -/
def clickerTick (s : ClickerState) : ClickerState :=
  if s.timerActive then
    if s.timeLeft ≤ 1 then
      { s with timeLeft := 0, isRunning := false, timerActive := false,
               calls := s.calls ++ [s.score] }
    else { s with timeLeft := s.timeLeft - 1 }
  else s

/-- The events that can reach a mounted `ClickerGame`. -/
inductive ClickerEvent
  | frame (w h time : ℚ) (rnd : SpawnRnd)
  | tick
  | click (x y : ℚ)

/-- Dispatch one Clicker event. -/
def clickerStep : ClickerEvent → ClickerState → ClickerState
  | .frame w h time rnd, s => clickerFrame w h time rnd s
  | .tick, s => clickerTick s
  | .click x y, s => handleClick x y s

/-- A whole Clicker session: fold the event sequence over the state. -/
def clickerRun (evs : List ClickerEvent) (s : ClickerState) : ClickerState :=
  evs.foldl (fun s e => clickerStep e s) s

/-! ## Catcher (`CatcherGame`) -/

/-- An entry of `gameStateRef.current.items` in `CatcherGame`. -/
structure CatcherItem where
  id : ℕ
  x : ℚ
  y : ℚ
  speed : ℚ
  asset : String
deriving DecidableEq, Repr

/-- The mutable session state of `CatcherGame`. -/
structure CatcherState where
  playerX : ℚ
  items : List CatcherItem
  score : ℤ
  lives : ℤ
  isRunning : Bool
  lastSpawn : ℚ
  nextId : ℕ
  calls : List ℤ
  config : GameConfig
deriving DecidableEq, Repr

/-- Initial `CatcherGame` state on mount with canvas width `w` (the resize
handler centres the paddle). -/
def catcherInit (config : GameConfig) (w : ℚ) : CatcherState where
  playerX := w / 2
  items := []
  score := 0
  lives := 5
  isRunning := true
  lastSpawn := 0
  nextId := 0
  calls := []
  config := config

/-- From `MiniGames.tsx` lines 242-274, the body of the backward `for` loop
over `items` for a single item, on a canvas of height `h` (with
`playerW = 100`, `playerH = 20`, `playerY = h - 50`): advance the item by
its speed; if it lies in the paddle band and span it is caught (+1 point,
removed); otherwise if it has crossed the bottom edge it is removed and a
life is lost, and when the lives counter is now at or below 0 the game is
stopped and `onGameOver` is invoked with the current score.  Surviving items
are prepended to the accumulator (the loop walks the array backwards, so
prepending restores the original order). -/
def catcherProcessItem (h : ℚ) (st : CatcherState) (item : CatcherItem) : CatcherState :=
  let it := { item with y := item.y + item.speed }
  let playerY := h - 50
  if playerY < it.y ∧ it.y < playerY + 20 + 30 ∧
     st.playerX - 50 < it.x ∧ it.x < st.playerX + 50 then
    { st with score := st.score + 1 }
  else if h < it.y then
    let st1 := { st with lives := st.lives - 1 }
    if st1.lives ≤ 0 then
      { st1 with isRunning := false, calls := st1.calls ++ [st1.score] }
    else st1
  else
    { st with items := it :: st.items }

/-- The backward `for` loop of the Catcher render callback, applied to the
items in reverse order.  Note that the source loop carries on over the
remaining items even after `isRunning` has been set to false. -/
def catcherItemsLoop (h : ℚ) : List CatcherItem → CatcherState → CatcherState
  | [], st => st
  | i :: rest, st => catcherItemsLoop h rest (catcherProcessItem h st i)

/-- Random draws consumed by one Catcher spawn. -/
structure CatchRnd where
  x : ℚ
  s : ℚ
  a : ℚ
deriving DecidableEq, Repr

/-- From `MiniGames.tsx` lines 204-277: one invocation of the Catcher
`render` callback at timestamp `time` on a `w x h` canvas.  It returns
immediately when `isRunning` is false; otherwise it clamps the paddle to the
playfield, spawns an item at the top edge when the cadence allows (falling
speed `random(0,2) + speed * 0.5`) and then runs the item loop over the
items from the last index down to the first. -/
def catcherFrame (w h time : ℚ) (rnd : CatchRnd) (s : CatcherState) : CatcherState :=
  if s.isRunning then
    let px0 := if s.playerX < 50 then (50 : ℚ) else s.playerX
    let px := if w - 50 < px0 then w - 50 else px0
    let s0 := { s with playerX := px }
    let s1 :=
      if catcherSpawnRate s0.config.parameters.speed < time - s0.lastSpawn then
        { s0 with
          lastSpawn := time
          items := s0.items ++
            [⟨s0.nextId, rnd.x * (w - 40) + 20, -50,
              rnd.s * 2 + s0.config.parameters.speed / 2,
              assetPick s0.config.assets rnd.a⟩]
          nextId := s0.nextId + 1 }
      else s0
    catcherItemsLoop h s1.items.reverse { s1 with items := [] }
  else s

/-- The events that can reach a mounted `CatcherGame`: a frame, or a pointer
move placing the paddle at canvas coordinate `px` (the handler has no
`isRunning` guard in the source). -/
inductive CatcherEvent
  | frame (w h time : ℚ) (rnd : CatchRnd)
  | move (px : ℚ)

/-- Dispatch one Catcher event. -/
def catcherStep : CatcherEvent → CatcherState → CatcherState
  | .frame w h time rnd, s => catcherFrame w h time rnd s
  | .move px, s => { s with playerX := px }

/-- A whole Catcher session. -/
def catcherRun (evs : List CatcherEvent) (s : CatcherState) : CatcherState :=
  evs.foldl (fun s e => catcherStep e s) s

/-! ## Memory (`MemoryGame`) -/

/-- From `MiniGames.tsx` lines 321-326: a card of the Memory deck. -/
structure MemoryCard where
  id : ℕ
  content : String
  isFlipped : Bool
  isMatched : Bool
deriving DecidableEq, Repr

/-- The session state of `MemoryGame`: the four `useState` cells, the two
kinds of pending timers (the 1-second mismatch flip-back, and the scheduled
end-of-game `onGameOver` timeouts with their score), the recorded
`onGameOver` invocations and the received config. -/
structure MemoryState where
  cards : List MemoryCard
  flippedIds : List ℕ
  numMatches : ℕ
  moves : ℕ
  pendingUnflip : Option (ℕ × ℕ)
  pendingEnd : List ℤ
  calls : List ℤ
  config : GameConfig
deriving DecidableEq, Repr

/-- From `MiniGames.tsx` line 336-337: the deck contents before the shuffle,
`[...selection, ...selection]` where `selection = config.assets.slice(0, 8)`. -/
def deckContents (assets : List String) : List String :=
  assets.take 8 ++ assets.take 8

/-- From `MiniGames.tsx` lines 338-344: lay the (already shuffled) contents
out as face-down cards; `.map((item, index) => ...)` assigns consecutive ids
starting at `i`. -/
def buildDeckFrom (i : ℕ) : List String → List MemoryCard
  | [] => []
  | c :: rest => ⟨i, c, false, false⟩ :: buildDeckFrom (i + 1) rest

/-- The full face-down deck: ids are the positions after the shuffle. -/
def buildDeck (contents : List String) : List MemoryCard :=
  buildDeckFrom 0 contents

/-- Initial `MemoryGame` state.  The source shuffles with
`sort(() => Math.random() - 0.5)`; the shuffle outcome is passed in as the
`shuffled` list, constrained in the theorems to be a permutation of
`deckContents config.assets`. -/
def memoryInit (config : GameConfig) (shuffled : List String) : MemoryState where
  cards := buildDeck shuffled
  flippedIds := []
  numMatches := 0
  moves := 0
  pendingUnflip := none
  pendingEnd := []
  calls := []
  config := config

/-- `cards.find(c => c.id === id)`. -/
def findCard (s : MemoryState) (id : ℕ) : Option MemoryCard :=
  s.cards.find? fun c => c.id == id

/-- From `MiniGames.tsx` line 381: the reported score
`Math.max(0, 1000 - (moves * 20))`. -/
def memFinalScore (moves : ℕ) : ℤ := jsMax 0 (1000 - 20 * (moves : ℤ))

/-- From `MiniGames.tsx` lines 377-384: the game-over effect.  It runs after
every change of `matches`, `cards.length` or `moves`; when the deck is
nonempty and `matches === cards.length / 2` (written here as
`2 * matches = cards.length`, which is equivalent because `matches` is an
integer) it schedules a 1-second timeout invoking `onGameOver` with the
final score. -/
def checkGameOver (s : MemoryState) : MemoryState :=
  if 0 < s.cards.length ∧ 2 * s.numMatches = s.cards.length then
    { s with pendingEnd := s.pendingEnd ++ [memFinalScore s.moves] }
  else s

/-- From `MiniGames.tsx` lines 349-374: the match-check effect, which fires
after `flippedIds` changes.  With exactly two flipped ids it counts a move
and compares the two cards: equal content marks both matched, increments the
match counter and clears the flipped list; otherwise (including the case
where a looked-up card is absent) a 1-second flip-back timer is armed.  The
game-over effect re-runs afterwards in either case since `moves` changed. -/
def checkMatch (s : MemoryState) : MemoryState :=
  match s.flippedIds with
  | [first, second] =>
    let s1 := { s with moves := s.moves + 1 }
    match findCard s1 first, findCard s1 second with
    | some c1, some c2 =>
      if c1.content = c2.content then
        checkGameOver { s1 with
          cards := s1.cards.map fun c =>
            if c.id = first ∨ c.id = second then { c with isMatched := true } else c
          numMatches := s1.numMatches + 1
          flippedIds := [] }
      else
        checkGameOver { s1 with pendingUnflip := some (first, second) }
    | _, _ => checkGameOver { s1 with pendingUnflip := some (first, second) }
  | _ => s

/-- From `MiniGames.tsx` lines 386-394: `handleCardClick`.  A click is
ignored while two cards are face-up and unresolved, on a card already in the
flipped list, or on a matched card; otherwise the card is flipped face-up
and its id appended to the flipped list, after which the match-check effect
runs. -/
def handleCardClick (id : ℕ) (s : MemoryState) : MemoryState :=
  if 2 ≤ s.flippedIds.length then s
  else if id ∈ s.flippedIds then s
  else if (findCard s id).elim false (fun c => c.isMatched) then s
  else
    checkMatch { s with
      cards := s.cards.map fun c =>
        if c.id = id then { c with isFlipped := true } else c
      flippedIds := s.flippedIds ++ [id] }

/-- The events that can reach a mounted `MemoryGame`: a card click, the
1-second mismatch flip-back timer firing (lines 365-370), and a scheduled
end-of-game timeout firing (line 382). -/
inductive MemoryEvent
  | click (id : ℕ)
  | unflipFire
  | endFire
deriving DecidableEq, Repr

/-- Dispatch one Memory event. -/
def memoryStep : MemoryEvent → MemoryState → MemoryState
  | .click id, s => handleCardClick id s
  | .unflipFire, s =>
    match s.pendingUnflip with
    | some (a, b) =>
      { s with
        cards := s.cards.map fun c =>
          if c.id = a ∨ c.id = b then { c with isFlipped := false } else c
        flippedIds := []
        pendingUnflip := none }
    | none => s
  | .endFire, s =>
    match s.pendingEnd with
    | v :: rest => { s with pendingEnd := rest, calls := s.calls ++ [v] }
    | [] => s

/-- A whole Memory session. -/
def memoryRun (evs : List MemoryEvent) (s : MemoryState) : MemoryState :=
  evs.foldl (fun s e => memoryStep e s) s

/-- Click events must target ids of cards that are actually rendered; the
other two events are timer firings.  In the source the click handlers are
attached to the rendered card buttons, whose ids are exactly the positions
`0, ..., deckSize - 1`. -/
def clickValid (deckSize : ℕ) : MemoryEvent → Bool
  | .click id => id < deckSize
  | _ => true

/-- Number of matched cards in a deck. -/
def matchedCount (l : List MemoryCard) : ℕ := l.countP fun c => c.isMatched

/-! ## Concrete states used as failing inputs and witnesses -/

/-- A Catcher session state on a 800 x 600 canvas: one life left and two
uncaught items (far from the paddle at x = 400) that will both cross the
bottom edge on the next frame.  Reachable by missing four items and letting
these two fall. -/
def catcherBugState : CatcherState :=
  { catcherInit fallbackConfig 800 with
    lives := 1
    items := [⟨0, 700, 590, 20, "a"⟩, ⟨1, 700, 595, 20, "b"⟩] }

/-- A second Catcher session state: one life left, two items about to cross
the bottom edge far from the paddle, and one item (x = 400, directly over
the paddle) about to be caught in the same frame. -/
def catcherBugState2 : CatcherState :=
  { catcherInit fallbackConfig 800 with
    lives := 1
    items := [⟨0, 400, 560, 30, "a"⟩, ⟨1, 100, 590, 20, "b"⟩, ⟨2, 100, 595, 30, "c"⟩] }

/-- A Clicker session state with three fully grown targets stacked at the
same centre (100, 100): a single tap at the centre is inside all three. -/
def overlapState : ClickerState :=
  { clickerInit fallbackConfig with
    entities := [⟨0, 100, 100, 40, "a", 50, 100⟩, ⟨1, 100, 100, 40, "a", 50, 100⟩,
                 ⟨2, 100, 100, 40, "a", 50, 100⟩] }

/-- A config whose asset list has length 8 but contains a duplicated entry. -/
def dupAssetsConfig : GameConfig :=
  { fallbackConfig with assets := ["a", "a", "b", "c", "d", "e", "f", "g"] }

/-- A config with eight pairwise distinct assets. -/
def eightAssetsConfig : GameConfig :=
  { fallbackConfig with assets := ["a", "b", "c", "d", "e", "f", "g", "h"] }

/-- A config with an empty asset list. -/
def emptyAssetsConfig : GameConfig :=
  { fallbackConfig with assets := [] }

/-- A two-card Memory state with both cards face-up and unequal, as produced
by two clicks right before the match-check effect runs. -/
def memMismatchPre : MemoryState where
  cards := [⟨0, "x", true, false⟩, ⟨1, "y", true, false⟩]
  flippedIds := [0, 1]
  numMatches := 0
  moves := 0
  pendingUnflip := none
  pendingEnd := []
  calls := []
  config := fallbackConfig

/-! ## The Memory session invariant -/

/-- Inductive invariant of a Memory session whose deck has `L` cards: card
ids are exactly the positions `0, ..., L - 1`; flipped ids are distinct ids
of unmatched cards; the match counter counts matched cards in pairs; and the
recorded plus scheduled `onGameOver` calls are exactly one call carrying
`max(0, 1000 - 20 x moves)` once the deck is fully matched, and none
before. -/
structure MemInv (L : ℕ) (s : MemoryState) : Prop where
  ids : (s.cards.map fun c => c.id) = List.range L
  flipLt : ∀ i ∈ s.flippedIds, i < L
  flipNodup : s.flippedIds.Nodup
  flipUnmatched : ∀ i ∈ s.flippedIds, ∀ c ∈ s.cards, c.id = i → c.isMatched = false
  count : 2 * s.numMatches = matchedCount s.cards
  reports : s.calls ++ s.pendingEnd =
    if 0 < s.cards.length ∧ 2 * s.numMatches = s.cards.length
    then [memFinalScore s.moves] else []

/-! ## Clicker tap lemmas

The JavaScript `forEach`/`splice` loop of `handleClick` is `clickScan`.  The
lemmas below capture what a tap does: every removal is worth 10 points, no
target outside the tap radius is removed, and the first geometric match is
always removed. -/

/-- Kept targets plus removals account for the whole list. -/
theorem clickScan_length (hit : ClickerEntity → Bool) :
    ∀ l : List ClickerEntity, (clickScan hit l).1.length + (clickScan hit l).2 = l.length
  | [] => by simp [clickScan]
  | [a] => by by_cases ha : hit a <;> simp [clickScan, ha]
  | a :: b :: rest2 => by
    by_cases ha : hit a
    · have ih := clickScan_length hit rest2
      simp only [clickScan, ha, if_true, List.length_cons]
      omega
    · have ih := clickScan_length hit (b :: rest2)
      simp only [List.length_cons] at ih
      simp only [clickScan, ha, Bool.false_eq_true, if_false, List.length_cons]
      omega

/-- The scan never duplicates a target: multiplicities never increase. -/
theorem clickScan_count_le (hit : ClickerEntity → Bool) (e : ClickerEntity) :
    ∀ l : List ClickerEntity, (clickScan hit l).1.count e ≤ l.count e
  | [] => by simp [clickScan]
  | [a] => by by_cases ha : hit a <;> simp [clickScan, ha, List.count_cons]
  | a :: b :: rest2 => by
    by_cases ha : hit a
    · have ih := clickScan_count_le hit e rest2
      simp only [clickScan, ha, if_true, List.count_cons]
      split <;> omega
    · have ih := clickScan_count_le hit e (b :: rest2)
      simp only [List.count_cons] at ih
      simp only [clickScan, ha, Bool.false_eq_true, if_false, List.count_cons]
      split at ih <;> split <;> omega

/-- A target the tap does not hit is never removed: its multiplicity among
the surviving targets is unchanged. -/
theorem clickScan_nonhit_count (hit : ClickerEntity → Bool) (e : ClickerEntity)
    (he : hit e = false) :
    ∀ l : List ClickerEntity, (clickScan hit l).1.count e = l.count e
  | [] => by simp [clickScan]
  | [a] => by
    by_cases ha : hit a
    · have hae : (a == e) = false := by
        refine beq_false_of_ne fun h => ?_
        rw [h, he] at ha
        exact Bool.false_ne_true ha
      simp [clickScan, ha, List.count_cons, hae]
    · simp [clickScan, ha, List.count_cons]
  | a :: b :: rest2 => by
    by_cases ha : hit a
    · have hae : (a == e) = false := by
        refine beq_false_of_ne fun h => ?_
        rw [h, he] at ha
        exact Bool.false_ne_true ha
      have ih := clickScan_nonhit_count hit e he rest2
      simp only [clickScan, ha, if_true, List.count_cons, ih, hae, Bool.false_eq_true,
        if_false]
      omega
    · have ih := clickScan_nonhit_count hit e he (b :: rest2)
      simp only [List.count_cons] at ih
      simp only [clickScan, ha, Bool.false_eq_true, if_false, List.count_cons, ih]

/-- The first target hit by the tap (in iteration order) is removed: its
multiplicity strictly decreases. -/
theorem clickScan_first_hit_removed (hit : ClickerEntity → Bool) (e : ClickerEntity) :
    ∀ l : List ClickerEntity, l.find? hit = some e →
      (clickScan hit l).1.count e < l.count e
  | [], h => by simp at h
  | [a], h => by
    by_cases ha : hit a
    · rw [List.find?_cons_of_pos _ ha] at h
      obtain rfl : a = e := by injection h
      simp [clickScan, ha, List.count_cons]
    · rw [List.find?_cons_of_neg _ ha] at h
      simp at h
  | a :: b :: rest2, h => by
    by_cases ha : hit a
    · rw [List.find?_cons_of_pos _ ha] at h
      obtain rfl : a = e := by injection h
      have hle := clickScan_count_le hit a rest2
      have hself : (a == a) = true := beq_self_eq_true a
      simp only [clickScan, ha, if_true, List.count_cons, hself, if_true]
      omega
    · rw [List.find?_cons_of_neg _ ha] at h
      have ih := clickScan_first_hit_removed hit e (b :: rest2) h
      have hae : (a == e) = false := by
        refine beq_false_of_ne fun hh => ?_
        have he : hit e = true := List.find?_some h
        rw [hh, he] at ha
        exact ha rfl
      simp only [List.count_cons] at ih
      simp only [clickScan, ha, Bool.false_eq_true, if_false, List.count_cons, hae]
      omega

/-- Every target surviving the render-loop update either still has positive
life (its visited, updated form) or was skipped this frame because the
target just before it was removed (it then survives unmodified, to be
updated on a later frame). -/
theorem frameScan_mem (mult : ℚ) :
    ∀ l : List ClickerEntity, ∀ x ∈ frameScan mult l, ¬ x.life ≤ 0 ∨ x ∈ l
  | [], x, hx => by simp [frameScan] at hx
  | [a], x, hx => by
    by_cases ha : (entUpdate mult a).life ≤ 0
    · simp [frameScan, ha] at hx
    · simp only [frameScan, ha, if_false, List.mem_cons, List.not_mem_nil, or_false] at hx
      subst hx
      exact Or.inl ha
  | a :: b :: rest2, x, hx => by
    by_cases ha : (entUpdate mult a).life ≤ 0
    · simp only [frameScan, ha, if_true, List.mem_cons] at hx
      rcases hx with rfl | hx
      · exact Or.inr (by simp)
      · rcases frameScan_mem mult rest2 x hx with h | h
        · exact Or.inl h
        · exact Or.inr (by simp [h])
    · simp only [frameScan, ha, if_false, List.mem_cons] at hx
      rcases hx with rfl | hx
      · exact Or.inl ha
      · rcases frameScan_mem mult (b :: rest2) x hx with h | h
        · exact Or.inl h
        · exact Or.inr (by simp [List.mem_cons] at h ⊢; tauto)

/-- The render loop never touches the score. -/
theorem clickerFrame_score (w h time : ℚ) (rnd : SpawnRnd) (s : ClickerState) :
    (clickerFrame w h time rnd s).score = s.score := by
  unfold clickerFrame
  split
  · dsimp only
    split <;> rfl
  · rfl

/-- `jsMax` is the lattice `max`. -/
theorem jsMax_eq_max {α : Type} [LinearOrder α] (a b : α) : jsMax a b = max a b := by
  unfold jsMax
  rcases lt_or_ge a b with h | h
  · rw [if_pos h, max_eq_right h.le]
  · rw [if_neg (not_lt.mpr h), max_eq_left h]

/-! ## Memory deck lemmas -/

/-- The deck contents, read back off the cards, are the shuffled input. -/
theorem buildDeckFrom_map_content (i : ℕ) :
    ∀ c : List String, ((buildDeckFrom i c).map fun k => k.content) = c
  | [] => rfl
  | s :: rest => by
    simp only [buildDeckFrom, List.map_cons, List.cons.injEq, true_and]
    exact buildDeckFrom_map_content (i + 1) rest

/-- The card ids are the consecutive positions starting at `i`. -/
theorem buildDeckFrom_map_id :
    ∀ (c : List String) (i : ℕ),
      ((buildDeckFrom i c).map fun k => k.id) = List.range' i c.length
  | [], _ => rfl
  | s :: rest, i => by
    simp only [buildDeckFrom, List.map_cons, List.length_cons, List.range'_succ,
      List.cons.injEq, true_and]
    exact buildDeckFrom_map_id rest (i + 1)

/-- The card ids of the full deck are `0, ..., length - 1`. -/
theorem buildDeck_map_id (c : List String) :
    ((buildDeck c).map fun k => k.id) = List.range c.length := by
  rw [buildDeck, buildDeckFrom_map_id, List.range_eq_range']

/-- Cards start out unmatched. -/
theorem buildDeckFrom_unmatched (i : ℕ) :
    ∀ c : List String, ∀ k ∈ buildDeckFrom i c, k.isMatched = false
  | [], k, hk => by simp [buildDeckFrom] at hk
  | s :: rest, k, hk => by
    simp only [buildDeckFrom, List.mem_cons] at hk
    rcases hk with rfl | hk
    · rfl
    · exact buildDeckFrom_unmatched (i + 1) rest k hk

/-- Cards start out face-down. -/
theorem buildDeckFrom_unflipped (i : ℕ) :
    ∀ c : List String, ∀ k ∈ buildDeckFrom i c, k.isFlipped = false
  | [], k, hk => by simp [buildDeckFrom] at hk
  | s :: rest, k, hk => by
    simp only [buildDeckFrom, List.mem_cons] at hk
    rcases hk with rfl | hk
    · rfl
    · exact buildDeckFrom_unflipped (i + 1) rest k hk

/-! ## Card-map bookkeeping lemmas -/

/-- A card update that does not touch ids leaves the id list unchanged. -/
theorem map_id_preserved (f : MemoryCard → MemoryCard)
    (hf : ∀ c, (f c).id = c.id) (l : List MemoryCard) :
    ((l.map f).map fun c => c.id) = l.map fun c => c.id := by
  rw [List.map_map]
  exact List.map_congr_left fun c _ => hf c

/-- A card update that does not touch the matched flag leaves the matched
count unchanged. -/
theorem matchedCount_map_preserved (f : MemoryCard → MemoryCard)
    (hf : ∀ c, (f c).isMatched = c.isMatched) (l : List MemoryCard) :
    matchedCount (l.map f) = matchedCount l := by
  rw [matchedCount, matchedCount, List.countP_map]
  exact List.countP_congr fun c _ => by simp [Function.comp, hf c]

/-- Marking the cards with ids `a` and `b` as matched raises the matched
count by the number of previously unmatched cards carrying one of the two
ids. -/
theorem matchedCount_markTwo (a b : ℕ) :
    ∀ l : List MemoryCard,
      matchedCount (l.map fun c =>
          if c.id = a ∨ c.id = b then { c with isMatched := true } else c)
        = matchedCount l
          + l.countP fun c => decide (c.id = a ∨ c.id = b) && !c.isMatched
  | [] => rfl
  | c :: rest => by
    have ih := matchedCount_markTwo a b rest
    by_cases hc : c.id = a ∨ c.id = b
    · by_cases hm : c.isMatched
      · simp only [matchedCount, List.map_cons, List.countP_cons, hc, if_pos, hm] at *
        simp [ih, matchedCount, hc, hm]
        omega
      · simp only [matchedCount, List.map_cons, List.countP_cons] at *
        simp [ih, matchedCount, hc, hm]
        omega
    · simp only [matchedCount, List.map_cons, List.countP_cons] at *
      simp [ih, matchedCount, hc]
      omega

/-- Splitting the unmatched-pair count over the two (distinct) ids. -/
theorem countP_pair_split (a b : ℕ) (hab : a ≠ b) :
    ∀ l : List MemoryCard,
      (l.countP fun c => decide (c.id = a ∨ c.id = b) && !c.isMatched)
        = (l.countP fun c => c.id == a && !c.isMatched)
          + l.countP fun c => c.id == b && !c.isMatched
  | [] => rfl
  | c :: rest => by
    have ih := countP_pair_split a b hab rest
    rw [List.countP_cons, List.countP_cons, List.countP_cons, ih]
    have hsplit :
        (if (decide (c.id = a ∨ c.id = b) && !c.isMatched) = true then 1 else 0)
          = (if (c.id == a && !c.isMatched) = true then 1 else 0)
            + (if (c.id == b && !c.isMatched) = true then 1 else 0) := by
      by_cases hca : c.id = a
      · by_cases hm : c.isMatched <;> simp [hca, hm, hab]
      · by_cases hcb : c.id = b
        · have hba : ¬ b = a := fun hh => hab hh.symm
          by_cases hm : c.isMatched <;> simp [hca, hcb, hm, hba]
        · simp [hca, hcb]
    omega

/-- When every card with id `a` is unmatched, the unmatched count for `a`
is just the count of cards with id `a`. -/
theorem countP_unmatched_eq (a : ℕ) (l : List MemoryCard)
    (hu : ∀ c ∈ l, c.id = a → c.isMatched = false) :
    (l.countP fun c => c.id == a && !c.isMatched)
      = l.countP fun c => c.id == a := by
  refine List.countP_congr fun c hc => ?_
  by_cases hca : c.id = a
  · simp [hca, hu c hc hca]
  · simp [hca]

/-- Card-id counts read off the id list. -/
theorem countP_id_eq_count (a : ℕ) (l : List MemoryCard) :
    (l.countP fun c => c.id == a) = (l.map fun c => c.id).count a := by
  rw [List.count_eq_countP, List.countP_map]
  rfl

/-! ## Memory invariant lemmas -/

/-- The deck size is constant. -/
theorem MemInv.cards_length {L : ℕ} {s : MemoryState} (h : MemInv L s) :
    s.cards.length = L := by
  have hlen := congrArg List.length h.ids
  simpa using hlen

/-- Every position below the deck size is the id of some card. -/
theorem MemInv.exists_card {L : ℕ} {s : MemoryState} (h : MemInv L s) {i : ℕ}
    (hi : i < L) : ∃ c ∈ s.cards, c.id = i := by
  have hmem : i ∈ s.cards.map fun c => c.id := by
    rw [h.ids]
    exact List.mem_range.mpr hi
  simpa using hmem

/-- Card ids are unique. -/
theorem MemInv.unique_card {L : ℕ} {s : MemoryState} (h : MemInv L s) :
    ∀ c1 ∈ s.cards, ∀ c2 ∈ s.cards, c1.id = c2.id → c1 = c2 := by
  have hnd : ((s.cards.map fun c => c.id)).Nodup := by
    rw [h.ids]
    exact List.nodup_range L
  exact fun c1 h1 c2 h2 heq => List.inj_on_of_nodup_map hnd h1 h2 heq

/-- Exactly one card carries each id below the deck size. -/
theorem MemInv.countP_id {L : ℕ} {s : MemoryState} (h : MemInv L s) {i : ℕ}
    (hi : i < L) : (s.cards.countP fun c => c.id == i) = 1 := by
  rw [countP_id_eq_count, h.ids]
  exact List.count_eq_one_of_mem (List.nodup_range L) (List.mem_range.mpr hi)

/-- `cards.find(c => c.id === i)` succeeds for every id below the deck size
and returns the unique card with that id. -/
theorem MemInv.findCard_spec {L : ℕ} {s : MemoryState} (h : MemInv L s) {i : ℕ}
    (hi : i < L) : ∃ c, findCard s i = some c ∧ c ∈ s.cards ∧ c.id = i := by
  obtain ⟨c0, hc0, hid0⟩ := h.exists_card hi
  have hsome : (s.cards.find? fun c => c.id == i).isSome = true :=
    List.find?_isSome.mpr ⟨c0, hc0, by simp [hid0]⟩
  obtain ⟨c, hc⟩ := Option.isSome_iff_exists.mp hsome
  refine ⟨c, hc, List.mem_of_find?_eq_some hc, ?_⟩
  have hp := List.find?_some hc
  simpa using hp

/-- While some card is flipped and unresolved, the deck is not complete. -/
theorem MemInv.not_done_of_flipped {L : ℕ} {s : MemoryState} (h : MemInv L s)
    {i : ℕ} (hi : i ∈ s.flippedIds) :
    ¬ (0 < s.cards.length ∧ 2 * s.numMatches = s.cards.length) := by
  rintro ⟨hpos, hdone⟩
  obtain ⟨c, hcmem, hcid⟩ := h.exists_card (h.flipLt i hi)
  have hcm : c.isMatched = false := h.flipUnmatched i hi c hcmem hcid
  have hcount := h.count
  simp only [matchedCount] at hcount
  have hle : List.countP (fun c => c.isMatched) s.cards ≤ s.cards.length :=
    List.countP_le_length _
  have hne : List.countP (fun c => c.isMatched) s.cards ≠ s.cards.length := by
    intro heq
    have hall := List.countP_eq_length.mp heq c hcmem
    simp [hcm] at hall
  omega

/-- In a state with no flipped cards and nothing scheduled, the recorded and
scheduled calls are empty while the deck is incomplete. -/
theorem MemInv.reports_nil {L : ℕ} {s : MemoryState} (h : MemInv L s)
    (hnd : ¬ (0 < s.cards.length ∧ 2 * s.numMatches = s.cards.length)) :
    s.calls = [] ∧ s.pendingEnd = [] := by
  have hrep := h.reports
  rw [if_neg hnd] at hrep
  exact List.append_eq_nil.mp hrep

/-- Once the match counter covers the whole deck, every card is matched. -/
theorem MemInv.all_matched_of_done {L : ℕ} {s : MemoryState} (h : MemInv L s)
    (hdone : 2 * s.numMatches = s.cards.length) :
    ∀ c ∈ s.cards, c.isMatched = true := by
  have hcount := h.count
  simp only [matchedCount] at hcount
  have hlen : List.countP (fun c => c.isMatched) s.cards = s.cards.length := by omega
  exact List.countP_eq_length.mp hlen

/-- The game-over effect preserves the invariant: it appends the scheduled
call exactly when the deck has just been completed. -/
theorem memInv_checkGameOver {L : ℕ} {s : MemoryState}
    (ids : (s.cards.map fun c => c.id) = List.range L)
    (flipLt : ∀ i ∈ s.flippedIds, i < L)
    (flipNodup : s.flippedIds.Nodup)
    (flipUnmatched : ∀ i ∈ s.flippedIds, ∀ c ∈ s.cards, c.id = i → c.isMatched = false)
    (count : 2 * s.numMatches = matchedCount s.cards)
    (hrep : s.calls = [] ∧ s.pendingEnd = []) :
    MemInv L (checkGameOver s) := by
  unfold checkGameOver
  by_cases hdone : 0 < s.cards.length ∧ 2 * s.numMatches = s.cards.length
  · rw [if_pos hdone]
    exact ⟨ids, flipLt, flipNodup, flipUnmatched, count, by simp [hrep.1, hrep.2, hdone]⟩
  · rw [if_neg hdone]
    exact ⟨ids, flipLt, flipNodup, flipUnmatched, count, by simp [hrep.1, hrep.2, hdone]⟩

/-- The match-check effect preserves the invariant. -/
theorem memInv_checkMatch {L : ℕ} {s : MemoryState} (h : MemInv L s) :
    MemInv L (checkMatch s) := by
  rcases hfl : s.flippedIds with _ | ⟨a, _ | ⟨b, _ | ⟨c, t⟩⟩⟩
  · simpa only [checkMatch, hfl] using h
  · simpa only [checkMatch, hfl] using h
  case cons.cons.cons => simpa only [checkMatch, hfl] using h
  -- the two-flipped case
  have hmem_a : a ∈ s.flippedIds := by rw [hfl]; simp
  have hmem_b : b ∈ s.flippedIds := by rw [hfl]; simp
  have hab : a ≠ b := by
    have hnd := h.flipNodup
    rw [hfl] at hnd
    simp only [List.nodup_cons, List.mem_singleton] at hnd
    exact hnd.1
  have hndone := h.not_done_of_flipped hmem_a
  have hnil := h.reports_nil hndone
  have hlt2 : ∀ j ∈ ([a, b] : List ℕ), j < L := hfl ▸ h.flipLt
  have hnd2 : ([a, b] : List ℕ).Nodup := hfl ▸ h.flipNodup
  have hum2 : ∀ j ∈ ([a, b] : List ℕ), ∀ c ∈ s.cards, c.id = j → c.isMatched = false :=
    hfl ▸ h.flipUnmatched
  have hMis : MemInv L (checkGameOver
      { s with flippedIds := [a, b], moves := s.moves + 1,
               pendingUnflip := some (a, b) }) := by
    apply memInv_checkGameOver
    · exact h.ids
    · exact hlt2
    · exact hnd2
    · exact hum2
    · exact h.count
    · exact hnil
  simp only [checkMatch, hfl]
  split
  · split
    · -- equal contents: both cards become matched
      apply memInv_checkGameOver
      · dsimp only
        rw [map_id_preserved _ (fun c => by by_cases hc : (c.id = a ∨ c.id = b) <;> simp [hc])]
        exact h.ids
      · intro j hj
        simp at hj
      · exact List.nodup_nil
      · intro j hj
        simp at hj
      · have hmark := matchedCount_markTwo a b s.cards
        have hsplitp := countP_pair_split a b hab s.cards
        have hua := h.flipUnmatched a hmem_a
        have hub := h.flipUnmatched b hmem_b
        have hca1 := countP_unmatched_eq a s.cards hua
        have hcb1 := countP_unmatched_eq b s.cards hub
        have hia := h.countP_id (h.flipLt a hmem_a)
        have hib := h.countP_id (h.flipLt b hmem_b)
        have hcnt := h.count
        dsimp only
        omega
      · exact hnil
    · exact hMis
  · exact hMis

/-- `handleCardClick` preserves the invariant for clicks on rendered ids. -/
theorem memInv_click {L : ℕ} {s : MemoryState} {i : ℕ} (hi : i < L)
    (h : MemInv L s) : MemInv L (handleCardClick i s) := by
  unfold handleCardClick
  by_cases h1 : 2 ≤ s.flippedIds.length
  · rwa [if_pos h1]
  · rw [if_neg h1]
    by_cases h2 : i ∈ s.flippedIds
    · rwa [if_pos h2]
    · rw [if_neg h2]
      by_cases hg : ((findCard s i).elim false fun c => c.isMatched) = true
      · rwa [if_pos hg]
      · rw [if_neg hg]
        have hunm_i : ∀ c ∈ s.cards, c.id = i → c.isMatched = false := by
          intro c hc hcid
          obtain ⟨c0, hf0, hc0_mem, hc0_id⟩ := h.findCard_spec hi
          have hceq : c = c0 := h.unique_card c hc c0 hc0_mem (by rw [hcid, hc0_id])
          subst hceq
          rw [hf0] at hg
          simpa using hg
        apply memInv_checkMatch
        constructor
        · dsimp only
          rw [map_id_preserved _ (fun c => by by_cases hc : c.id = i <;> simp [hc])]
          exact h.ids
        · intro j hj
          dsimp only at hj
          rcases List.mem_append.mp hj with hj | hj
          · exact h.flipLt j hj
          · simp only [List.mem_singleton] at hj
            subst hj
            exact hi
        · dsimp only
          rw [List.nodup_append]
          refine ⟨h.flipNodup, List.nodup_singleton i, ?_⟩
          intro x hx hx'
          simp only [List.mem_singleton] at hx'
          subst hx'
          exact h2 hx
        · intro j hj c' hc' hcid'
          dsimp only at hj hc'
          obtain ⟨c, hc, rfl⟩ := List.mem_map.mp hc'
          have hid_pres :
              (if c.id = i then { c with isFlipped := true } else c).id = c.id := by
            by_cases hci : c.id = i <;> simp [hci]
          have hm_pres :
              (if c.id = i then { c with isFlipped := true } else c).isMatched
                = c.isMatched := by
            by_cases hci : c.id = i <;> simp [hci]
          rw [hm_pres]
          rw [hid_pres] at hcid'
          rcases List.mem_append.mp hj with hj | hj
          · exact h.flipUnmatched j hj c hc hcid'
          · simp only [List.mem_singleton] at hj
            subst hj
            exact hunm_i c hc hcid'
        · dsimp only
          rw [matchedCount_map_preserved _ (fun c => by by_cases hc : c.id = i <;> simp [hc])]
          exact h.count
        · dsimp only
          rw [List.length_map]
          exact h.reports

/-- The mismatch flip-back timer preserves the invariant. -/
theorem memInv_unflip {L : ℕ} {s : MemoryState} (h : MemInv L s) :
    MemInv L (memoryStep .unflipFire s) := by
  rcases hp : s.pendingUnflip with _ | ⟨a, b⟩
  · simpa only [memoryStep, hp] using h
  · simp only [memoryStep, hp]
    constructor
    · dsimp only
      rw [map_id_preserved _ (fun c => by by_cases hc : (c.id = a ∨ c.id = b) <;> simp [hc])]
      exact h.ids
    · intro j hj
      simp at hj
    · exact List.nodup_nil
    · intro j hj
      simp at hj
    · dsimp only
      rw [matchedCount_map_preserved _
        (fun c => by by_cases hc : (c.id = a ∨ c.id = b) <;> simp [hc])]
      exact h.count
    · dsimp only
      rw [List.length_map]
      exact h.reports

/-- A scheduled end-of-game timeout firing preserves the invariant. -/
theorem memInv_endFire {L : ℕ} {s : MemoryState} (h : MemInv L s) :
    MemInv L (memoryStep .endFire s) := by
  rcases hp : s.pendingEnd with _ | ⟨v, rest⟩
  · simpa only [memoryStep, hp] using h
  · simp only [memoryStep, hp]
    refine ⟨h.ids, h.flipLt, h.flipNodup, h.flipUnmatched, h.count, ?_⟩
    have hrep := h.reports
    rw [hp] at hrep
    dsimp only
    rw [List.append_assoc]
    simpa using hrep

/-- The initial Memory state satisfies the invariant. -/
theorem memInv_init (config : GameConfig) (shuffled : List String) :
    MemInv shuffled.length (memoryInit config shuffled) := by
  constructor
  · exact buildDeck_map_id shuffled
  · intro j hj
    simp [memoryInit] at hj
  · simp [memoryInit]
  · intro j hj
    simp [memoryInit] at hj
  · dsimp only [memoryInit]
    rw [matchedCount, List.countP_eq_zero.mpr]
    intro k hk
    simp [buildDeckFrom_unmatched 0 shuffled k hk]
  · dsimp only [memoryInit]
    rw [if_neg]
    · rfl
    · rintro ⟨hpos, heq⟩
      omega

/-- Every reachable state of a Memory session satisfies the invariant, as
long as clicks target rendered ids. -/
theorem memInv_run {L : ℕ} (evs : List MemoryEvent) (s : MemoryState)
    (h : MemInv L s) (hv : ∀ e ∈ evs, clickValid L e = true) :
    MemInv L (memoryRun evs s) := by
  induction evs generalizing s with
  | nil => exact h
  | cons e evs ih =>
    have hstep : MemInv L (memoryStep e s) := by
      cases e with
      | click i =>
        have hvi := hv _ (List.mem_cons_self _ _)
        simp only [clickValid, decide_eq_true_eq] at hvi
        exact memInv_click hvi h
      | unflipFire => exact memInv_unflip h
      | endFire => exact memInv_endFire h
    have hrest : ∀ e2 ∈ evs, clickValid L e2 = true :=
      fun e2 he2 => hv e2 (List.mem_cons_of_mem _ he2)
    simpa only [memoryRun, List.foldl_cons] using ih (memoryStep e s) hstep hrest

/-! ## Config read-only lemmas -/

/-- Folding steps that never touch a projection leaves it unchanged. -/
theorem foldl_preserves {σ ε : Type} (f : σ → ε → σ) (g : σ → GameConfig)
    (hf : ∀ s e, g (f s e) = g s) :
    ∀ (evs : List ε) (s : σ), g (evs.foldl f s) = g s
  | [], _ => rfl
  | e :: evs, s => by
    rw [List.foldl_cons, foldl_preserves f g hf evs (f s e), hf]

/-- One Clicker event never touches the config. -/
theorem clickerStep_config (e : ClickerEvent) (s : ClickerState) :
    (clickerStep e s).config = s.config := by
  cases e with
  | frame w h time rnd =>
    show (clickerFrame w h time rnd s).config = s.config
    unfold clickerFrame
    split
    · dsimp only
      split <;> rfl
    · rfl
  | tick =>
    show (clickerTick s).config = s.config
    unfold clickerTick
    split
    · split <;> rfl
    · rfl
  | click x y =>
    show (handleClick x y s).config = s.config
    unfold handleClick
    split <;> rfl

/-- Processing one Catcher item never touches the config. -/
theorem catcherProcessItem_config (h : ℚ) (st : CatcherState) (it : CatcherItem) :
    (catcherProcessItem h st it).config = st.config := by
  unfold catcherProcessItem
  dsimp only
  split_ifs <;> rfl

/-- The Catcher item loop never touches the config. -/
theorem catcherItemsLoop_config (h : ℚ) :
    ∀ (l : List CatcherItem) (st : CatcherState),
      (catcherItemsLoop h l st).config = st.config
  | [], _ => rfl
  | i :: rest, st => by
    rw [catcherItemsLoop, catcherItemsLoop_config h rest _, catcherProcessItem_config]

/-- One Catcher event never touches the config. -/
theorem catcherStep_config (e : CatcherEvent) (s : CatcherState) :
    (catcherStep e s).config = s.config := by
  cases e with
  | frame w h time rnd =>
    show (catcherFrame w h time rnd s).config = s.config
    unfold catcherFrame
    split
    · rw [catcherItemsLoop_config]
      dsimp only
      split <;> rfl
    · rfl
  | move px => rfl

/-- The game-over effect never touches the config. -/
theorem checkGameOver_config (s : MemoryState) :
    (checkGameOver s).config = s.config := by
  unfold checkGameOver
  split <;> rfl

/-- The game-over effect never touches the mismatch timer. -/
theorem checkGameOver_pendingUnflip (s : MemoryState) :
    (checkGameOver s).pendingUnflip = s.pendingUnflip := by
  unfold checkGameOver
  split <;> rfl

/-- The game-over effect never touches the move counter. -/
theorem checkGameOver_moves (s : MemoryState) :
    (checkGameOver s).moves = s.moves := by
  unfold checkGameOver
  split <;> rfl

/-- The match-check effect never touches the config. -/
theorem checkMatch_config (s : MemoryState) :
    (checkMatch s).config = s.config := by
  unfold checkMatch
  split
  · dsimp only
    split
    · split <;> rw [checkGameOver_config]
    · rw [checkGameOver_config]
  · rfl

/-- One Memory event never touches the config. -/
theorem memoryStep_config (e : MemoryEvent) (s : MemoryState) :
    (memoryStep e s).config = s.config := by
  cases e with
  | click i =>
    show (handleCardClick i s).config = s.config
    unfold handleCardClick
    split_ifs <;> first | rfl | rw [checkMatch_config]
  | unflipFire =>
    rcases hp : s.pendingUnflip with _ | ⟨a, b⟩ <;> simp [memoryStep, hp]
  | endFire =>
    rcases hpe : s.pendingEnd with _ | ⟨v, rest⟩ <;> simp [memoryStep, hpe]

/-! ## Empty-deck lemmas -/

/-- With an empty deck, no event changes the deck or produces a call: the
game-over effect requires a nonempty deck. -/
theorem memory_empty_step (e : MemoryEvent) (s : MemoryState)
    (h : s.cards = [] ∧ s.calls = [] ∧ s.pendingEnd = []) :
    (memoryStep e s).cards = [] ∧ (memoryStep e s).calls = []
      ∧ (memoryStep e s).pendingEnd = [] := by
  obtain ⟨hc, hca, hp⟩ := h
  cases e with
  | click i =>
    show (handleCardClick i s).cards = [] ∧ (handleCardClick i s).calls = []
      ∧ (handleCardClick i s).pendingEnd = []
    unfold handleCardClick
    split_ifs with h1 h2 h3
    · exact ⟨hc, hca, hp⟩
    · exact ⟨hc, hca, hp⟩
    · exact ⟨hc, hca, hp⟩
    · rw [hc]
      unfold checkMatch
      rcases hfl : s.flippedIds ++ [i] with _ | ⟨a, _ | ⟨b, _ | ⟨cc, t⟩⟩⟩
      · simp only [hfl, List.map_nil]
        refine ⟨?_, ?_, ?_⟩ <;> simp_all
      · simp only [hfl, List.map_nil]
        refine ⟨?_, ?_, ?_⟩ <;> simp_all
      · -- two flipped phantom ids: the lookups fail and the game-over check
        -- sees an empty deck
        simp only [hfl, List.map_nil]
        unfold findCard
        simp only [List.find?_nil]
        unfold checkGameOver
        rw [if_neg (by simp)]
        refine ⟨?_, ?_, ?_⟩ <;> simp_all
      · simp only [hfl, List.map_nil]
        refine ⟨?_, ?_, ?_⟩ <;> simp_all
  | unflipFire =>
    rcases hpu : s.pendingUnflip with _ | ⟨a, b⟩
    · simp only [memoryStep, hpu]
      refine ⟨?_, ?_, ?_⟩ <;> simp_all
    · simp only [memoryStep, hpu]
      rw [hc]
      refine ⟨?_, ?_, ?_⟩ <;> simp_all
  | endFire =>
    rcases hpe : s.pendingEnd with _ | ⟨v, rest⟩
    · simp only [memoryStep, hpe]
      refine ⟨?_, ?_, ?_⟩ <;> simp_all
    · rw [hpe] at hp
      exact absurd hp (by simp)

/-- With an empty deck, a whole session never changes the deck and never
calls or schedules `onGameOver`. -/
theorem memory_empty_run (evs : List MemoryEvent) (s : MemoryState)
    (h : s.cards = [] ∧ s.calls = [] ∧ s.pendingEnd = []) :
    (memoryRun evs s).cards = [] ∧ (memoryRun evs s).calls = []
      ∧ (memoryRun evs s).pendingEnd = [] := by
  induction evs generalizing s with
  | nil => exact h
  | cons e evs ih =>
    simpa only [memoryRun, List.foldl_cons] using ih (memoryStep e s) (memory_empty_step e s h)

/-! ## Claim theorems -/

/-- Claim C1 (refuted, code bug): the spec says every mini-game calls
`onGameOver` at most once per session.  In the Catcher, the item loop of a
frame keeps running after `onGameOver` has fired: from a state with one life
left and two uncaught items that both cross the bottom edge in the same
frame, that frame invokes `onGameOver` twice (both times with the current
score 0).  The theorem evaluates the embedded Catcher frame at that state. -/
theorem catcher_double_gameover :
    catcherBugState.lives = 1 ∧ catcherBugState.isRunning = true ∧
    catcherBugState.calls = [] ∧
    (catcherFrame 800 600 0 ⟨0, 0, 0⟩ catcherBugState).calls = [0, 0] := by
  refine ⟨rfl, rfl, rfl, ?_⟩
  norm_num [catcherFrame, catcherBugState, catcherInit, catcherSpawnRate, jsMax,
    catcherItemsLoop, catcherProcessItem, fallbackConfig]

/-- Claim C2 (refuted in its last conjunct, code bug): catching adds 1 point
and a miss costs 1 life, but when the lives counter reaches 0 the frame does
not stop processing items, so two misses in the same frame produce two
`onGameOver` calls; a catch processed later in the same frame still raises
the score after the calls were made.  From a state with one life left, two
missing items and one caught item, the frame records two calls with score 0
while ending with score 1. -/
theorem catcher_two_misses_double_report :
    catcherBugState2.lives = 1 ∧ catcherBugState2.score = 0 ∧
    (catcherFrame 800 600 0 ⟨0, 0, 0⟩ catcherBugState2).calls = [0, 0] ∧
    (catcherFrame 800 600 0 ⟨0, 0, 0⟩ catcherBugState2).score = 1 ∧
    (catcherFrame 800 600 0 ⟨0, 0, 0⟩ catcherBugState2).lives = -1 := by
  refine ⟨rfl, rfl, ?_, ?_, ?_⟩ <;>
    norm_num [catcherFrame, catcherBugState2, catcherInit, catcherSpawnRate, jsMax,
      catcherItemsLoop, catcherProcessItem, fallbackConfig]

/-- Claim C3 counterexample: for the asset list
`["a", "a", "b", "c", "d", "e", "f", "g"]` (length 8, so within the scope of
the claim) the deck does not give every content value exactly two
occurrences: the duplicated first entry occurs four times.  The identity
shuffle is used; any permutation gives the same counts. -/
theorem memory_deck_duplicate_counterexample :
    dupAssetsConfig.assets.length = 8 ∧
    ((memoryInit dupAssetsConfig (deckContents dupAssetsConfig.assets)).cards.map
      fun c => c.content).count "a" = 4 ∧
    ¬ (∀ v ∈ (memoryInit dupAssetsConfig (deckContents dupAssetsConfig.assets)).cards.map
          fun c => c.content,
        ((memoryInit dupAssetsConfig (deckContents dupAssetsConfig.assets)).cards.map
          fun c => c.content).count v = 2) := by
  decide

/-- Claim C3 (amended): for every asset list and every shuffle outcome, the
deck built at initialization has size `2 * min 8 (length assets)` (even, and
twice the list length when the list is shorter than 8), and each value
occurs exactly `2 x` its multiplicity among the first 8 entries; when the
first 8 entries are pairwise distinct, every deck value occurs exactly
twice. -/
theorem memory_deck_structure (config : GameConfig) (shuffled : List String)
    (hperm : shuffled.Perm (deckContents config.assets)) :
    (memoryInit config shuffled).cards.length = 2 * min 8 config.assets.length ∧
    (∀ v : String,
      ((memoryInit config shuffled).cards.map fun c => c.content).count v
        = 2 * (config.assets.take 8).count v) ∧
    (config.assets.length < 8 →
      (memoryInit config shuffled).cards.length = 2 * config.assets.length) ∧
    ((config.assets.take 8).Nodup →
      ∀ v ∈ (memoryInit config shuffled).cards.map fun c => c.content,
        ((memoryInit config shuffled).cards.map fun c => c.content).count v = 2) := by
  have hmapc : ((memoryInit config shuffled).cards.map fun c => c.content) = shuffled :=
    buildDeckFrom_map_content 0 shuffled
  have hcnt : ∀ v : String, shuffled.count v = 2 * (config.assets.take 8).count v := by
    intro v
    rw [hperm.count_eq v]
    simp [deckContents, List.count_append]
    omega
  have hlen : shuffled.length = 2 * min 8 config.assets.length := by
    have hpl := hperm.length_eq
    simp only [deckContents, List.length_append, List.length_take] at hpl
    omega
  have hclen : (memoryInit config shuffled).cards.length = shuffled.length := by
    have := congrArg List.length hmapc
    simpa using this
  refine ⟨by rw [hclen, hlen], ?_, ?_, ?_⟩
  · intro v
    rw [hmapc]
    exact hcnt v
  · intro hshort
    rw [hclen, hlen]
    have : min 8 config.assets.length = config.assets.length := by omega
    rw [this]
  · intro hnd v hv
    rw [hmapc] at hv ⊢
    have hvmem : v ∈ config.assets.take 8 := by
      have hv2 : v ∈ deckContents config.assets := hperm.mem_iff.mp hv
      simpa [deckContents] using hv2
    rw [hcnt v, List.count_eq_one_of_mem hnd hvmem]

/-- Witness for the amended C3 at a config with eight distinct assets and
the identity shuffle: the deck has 16 cards and the value "a" occurs exactly
twice. -/
theorem memory_deck_structure_witness :
    (memoryInit eightAssetsConfig (deckContents eightAssetsConfig.assets)).cards.length
      = 2 * min 8 eightAssetsConfig.assets.length ∧
    ((memoryInit eightAssetsConfig (deckContents eightAssetsConfig.assets)).cards.map
      fun c => c.content).count "a" = 2 * (eightAssetsConfig.assets.take 8).count "a" ∧
    ((memoryInit eightAssetsConfig (deckContents eightAssetsConfig.assets)).cards.map
      fun c => c.content).count "a" = 2 :=
  ⟨(memory_deck_structure eightAssetsConfig _ (List.Perm.refl _)).1,
   (memory_deck_structure eightAssetsConfig _ (List.Perm.refl _)).2.1 "a",
   (memory_deck_structure eightAssetsConfig _ (List.Perm.refl _)).2.2.2 (by decide) "a"
     (by decide)⟩

/-- Claim C4: for every speed in `[1, 10]` the Clicker spawn interval equals
`max(200, 1000 - 80 x speed)` and the Catcher spawn interval equals
`max(300, 1500 - 100 x speed)`, as the code computes them (the code writes
the product as `speed * 80` and `speed * 100`). -/
theorem spawn_rates_match_spec (speed : ℚ) (_h1 : 1 ≤ speed) (_h10 : speed ≤ 10) :
    clickerSpawnRate speed = clickerSpawnRateSpec speed ∧
    catcherSpawnRate speed = catcherSpawnRateSpec speed := by
  unfold clickerSpawnRate clickerSpawnRateSpec catcherSpawnRate catcherSpawnRateSpec
  rw [mul_comm speed 80, mul_comm speed 100]
  exact ⟨rfl, rfl⟩

/-- Witness for C4 at speed 5: both formulas agree and evaluate to 600 ms
and 1000 ms. -/
theorem spawn_rates_match_spec_witness :
    (clickerSpawnRate 5 = clickerSpawnRateSpec 5 ∧
      catcherSpawnRate 5 = catcherSpawnRateSpec 5) ∧
    clickerSpawnRate 5 = 600 ∧ catcherSpawnRate 5 = 1000 :=
  ⟨spawn_rates_match_spec 5 (by norm_num) (by norm_num),
   by norm_num [clickerSpawnRate, jsMax], by norm_num [catcherSpawnRate, jsMax]⟩

/-- Claim C5 counterexample: with three fully grown targets stacked at the
same centre, a single tap at the centre is inside all three (Euclidean
distance 0 against radius 40), yet it adds 20 points and removes two
targets, not 10 points and one target: the `forEach`/`splice` loop skips
only the element sliding into a removed slot, and keeps iterating. -/
theorem clicker_tap_two_removals_counterexample :
    overlapState.score = 0 ∧ overlapState.entities.length = 3 ∧
    (∀ e ∈ overlapState.entities, clickHits 100 100 e = true) ∧
    (handleClick 100 100 overlapState).score = 20 ∧
    (handleClick 100 100 overlapState).entities.length = 1 := by
  refine ⟨rfl, rfl, ?_, ?_, ?_⟩ <;>
    norm_num [handleClick, overlapState, clickerInit, clickScan, clickHits, fallbackConfig]

/-- Claim C5 (amended): a tap adds exactly 10 points per removed target; the
number of surviving targets plus the removals accounts for the whole list; a
target outside the tap radius is never removed; the first target inside the
tap radius (in iteration order) is always removed — but more than one target
can be removed by a single tap, since after a removal the iteration skips
only the element that slid into the removed slot; and the render loop never
changes the score, removing a target whose life has run out whenever it
visits it (a target surviving a frame either still has positive life or was
skipped unmodified that frame). -/
theorem clicker_tap_amended (x y : ℚ) (s : ClickerState) (hrun : s.isRunning = true) :
    (handleClick x y s).score
      = s.score + 10 * (clickScan (clickHits x y) s.entities).2 ∧
    (handleClick x y s).entities.length + (clickScan (clickHits x y) s.entities).2
      = s.entities.length ∧
    (∀ e : ClickerEntity, clickHits x y e = false →
      (handleClick x y s).entities.count e = s.entities.count e) ∧
    (∀ e : ClickerEntity, s.entities.find? (clickHits x y) = some e →
      (handleClick x y s).entities.count e < s.entities.count e) ∧
    (∀ (w h time : ℚ) (rnd : SpawnRnd), (clickerFrame w h time rnd s).score = s.score) ∧
    (∀ (mult : ℚ) (l : List ClickerEntity), ∀ e ∈ frameScan mult l,
      ¬ e.life ≤ 0 ∨ e ∈ l) := by
  have hstep : handleClick x y s =
      { s with entities := (clickScan (clickHits x y) s.entities).1,
               score := s.score + 10 * (clickScan (clickHits x y) s.entities).2 } := by
    unfold handleClick
    rw [if_pos hrun]
  refine ⟨by rw [hstep], ?_, ?_, ?_, ?_, ?_⟩
  · rw [hstep]
    exact clickScan_length (clickHits x y) s.entities
  · intro e he
    rw [hstep]
    exact clickScan_nonhit_count (clickHits x y) e he s.entities
  · intro e he
    rw [hstep]
    exact clickScan_first_hit_removed (clickHits x y) e s.entities he
  · intro w h time rnd
    exact clickerFrame_score w h time rnd s
  · intro mult l
    exact frameScan_mem mult l

/-- Witness for the amended C5 at the stacked-targets state: the score and
survivor count follow the removal count. -/
theorem clicker_tap_amended_witness :
    (handleClick 100 100 overlapState).score
      = overlapState.score + 10 * (clickScan (clickHits 100 100) overlapState.entities).2 ∧
    (handleClick 100 100 overlapState).entities.length
        + (clickScan (clickHits 100 100) overlapState.entities).2
      = overlapState.entities.length :=
  ⟨(clicker_tap_amended 100 100 overlapState rfl).1,
   (clicker_tap_amended 100 100 overlapState rfl).2.1⟩

/-- Claim C6: in every Memory session whose clicks target rendered cards,
the recorded `onGameOver` calls together with the still-scheduled end
timeouts are exactly one call carrying `max(0, 1000 - 20 x moves)` when the
matched cards cover the whole (nonempty) deck, and none otherwise.  In
particular `onGameOver` is called exactly once with that score after the
1-second delay, and never before completion. -/
theorem memory_gameover_exactly_once (config : GameConfig) (shuffled : List String)
    (evs : List MemoryEvent)
    (hv : ∀ e ∈ evs, clickValid shuffled.length e = true) :
    (memoryRun evs (memoryInit config shuffled)).calls
        ++ (memoryRun evs (memoryInit config shuffled)).pendingEnd =
      if 0 < (memoryRun evs (memoryInit config shuffled)).cards.length ∧
          2 * (memoryRun evs (memoryInit config shuffled)).numMatches
            = (memoryRun evs (memoryInit config shuffled)).cards.length
      then [memFinalScore (memoryRun evs (memoryInit config shuffled)).moves]
      else [] :=
  (memInv_run evs (memoryInit config shuffled) (memInv_init config shuffled) hv).reports

/-- Witness for C6: a two-card session that is completed in one evaluation
and whose end timeout has fired reports exactly `[980]`. -/
theorem memory_gameover_exactly_once_witness :
    (memoryRun [.click 0, .click 1, .endFire] (memoryInit fallbackConfig ["x", "x"])).calls
      = [980] ∧
    ((memoryRun [.click 0, .click 1, .endFire] (memoryInit fallbackConfig ["x", "x"])).calls
        ++ (memoryRun [.click 0, .click 1, .endFire]
            (memoryInit fallbackConfig ["x", "x"])).pendingEnd =
      if 0 < (memoryRun [.click 0, .click 1, .endFire]
            (memoryInit fallbackConfig ["x", "x"])).cards.length ∧
          2 * (memoryRun [.click 0, .click 1, .endFire]
              (memoryInit fallbackConfig ["x", "x"])).numMatches
            = (memoryRun [.click 0, .click 1, .endFire]
                (memoryInit fallbackConfig ["x", "x"])).cards.length
      then [memFinalScore (memoryRun [.click 0, .click 1, .endFire]
              (memoryInit fallbackConfig ["x", "x"])).moves]
      else []) :=
  ⟨by decide,
   memory_gameover_exactly_once fallbackConfig ["x", "x"] [.click 0, .click 1, .endFire]
     (by decide)⟩

/-- Claim C7: a pending mismatch pair is flipped back face-down and the
flipped list cleared when the 1-second timer fires (in the model the timer
transition, whose firing `setTimeout` guarantees); a second-card evaluation
with unequal contents always arms that timer and counts the move; and while
two cards are face-up and unresolved every further click is ignored. -/
theorem memory_mismatch_flipback_and_block (s : MemoryState) :
    (∀ a b, s.pendingUnflip = some (a, b) →
      (memoryStep .unflipFire s).flippedIds = [] ∧
      (memoryStep .unflipFire s).pendingUnflip = none ∧
      ∀ c ∈ (memoryStep .unflipFire s).cards, (c.id = a ∨ c.id = b) →
        c.isFlipped = false) ∧
    (∀ a b c1 c2, s.flippedIds = [a, b] →
      findCard s a = some c1 → findCard s b = some c2 → c1.content ≠ c2.content →
      (checkMatch s).pendingUnflip = some (a, b) ∧ (checkMatch s).moves = s.moves + 1) ∧
    (∀ i, 2 ≤ s.flippedIds.length → memoryStep (.click i) s = s) := by
  refine ⟨?_, ?_, ?_⟩
  · intro a b hp
    simp only [memoryStep, hp]
    refine ⟨trivial, trivial, ?_⟩
    intro c hc hid
    obtain ⟨c0, hc0, rfl⟩ := List.mem_map.mp hc
    by_cases hcond : c0.id = a ∨ c0.id = b
    · simp [hcond]
    · rw [if_neg hcond] at hid ⊢
      exact absurd hid hcond
  · intro a b c1 c2 hfl hf1 hf2 hne
    have hf1m : findCard { s with flippedIds := [a, b], moves := s.moves + 1 } a
        = some c1 := hf1
    have hf2m : findCard { s with flippedIds := [a, b], moves := s.moves + 1 } b
        = some c2 := hf2
    simp only [checkMatch, hfl]
    rw [hf1m, hf2m]
    dsimp only
    rw [if_neg hne]
    exact ⟨by rw [checkGameOver_pendingUnflip], by rw [checkGameOver_moves]⟩
  · intro i h2
    show handleCardClick i s = s
    unfold handleCardClick
    rw [if_pos h2]

/-- Witness for C7: in the mismatch state reached by flipping the two
unequal cards of a four-card session, the timer transition flips both back
and a third click is ignored; and the premade two-flipped mismatch state
arms the timer and counts the move. -/
theorem memory_mismatch_flipback_and_block_witness :
    (memoryStep .unflipFire
        (memoryRun [.click 0, .click 1]
          (memoryInit fallbackConfig ["x", "y", "x", "y"]))).flippedIds = [] ∧
    (memoryStep .unflipFire
        (memoryRun [.click 0, .click 1]
          (memoryInit fallbackConfig ["x", "y", "x", "y"]))).pendingUnflip = none ∧
    memoryStep (.click 2)
        (memoryRun [.click 0, .click 1] (memoryInit fallbackConfig ["x", "y", "x", "y"]))
      = memoryRun [.click 0, .click 1] (memoryInit fallbackConfig ["x", "y", "x", "y"]) ∧
    (checkMatch memMismatchPre).pendingUnflip = some (0, 1) ∧
    (checkMatch memMismatchPre).moves = memMismatchPre.moves + 1 :=
  ⟨((memory_mismatch_flipback_and_block _).1 0 1 (by decide)).1,
   ((memory_mismatch_flipback_and_block _).1 0 1 (by decide)).2.1,
   (memory_mismatch_flipback_and_block _).2.2 2 (by decide),
   ((memory_mismatch_flipback_and_block memMismatchPre).2.1 0 1
     ⟨0, "x", true, false⟩ ⟨1, "y", true, false⟩ rfl (by decide) (by decide) (by decide)).1,
   ((memory_mismatch_flipback_and_block memMismatchPre).2.1 0 1
     ⟨0, "x", true, false⟩ ⟨1, "y", true, false⟩ rfl (by decide) (by decide) (by decide)).2⟩

/-- Claim C8: `generateGameForMood` never surfaces an error: a thrown call,
an absent or empty response text, and an unparseable text all yield the
fixed fallback config, whose game type is clicker, whose asset list has five
entries and whose speed and difficulty are 5; a parsed config is returned
unchanged.  This holds for every mood string. -/
theorem generate_fallback_total (mood : String) (parse : String → Option GameConfig) :
    (∀ msg, generateGameForMood mood (.failure msg) parse = fallbackConfig) ∧
    generateGameForMood mood (.response none) parse = fallbackConfig ∧
    generateGameForMood mood (.response (some "")) parse = fallbackConfig ∧
    (∀ text, parse text = none →
      generateGameForMood mood (.response (some text)) parse = fallbackConfig) ∧
    (∀ text cfg, text ≠ "" → parse text = some cfg →
      generateGameForMood mood (.response (some text)) parse = cfg) ∧
    fallbackConfig.gameType = .clicker ∧
    fallbackConfig.assets.length = 5 ∧
    fallbackConfig.parameters.speed = 5 ∧
    fallbackConfig.parameters.difficulty = 5 := by
  refine ⟨fun msg => rfl, rfl, rfl, ?_, ?_, rfl, rfl, rfl, rfl⟩
  · intro text hp
    show (if text = "" then fallbackConfig
      else match parse text with
        | none => fallbackConfig
        | some config => config) = fallbackConfig
    by_cases ht : text = ""
    · rw [if_pos ht]
    · rw [if_neg ht, hp]
  · intro text cfg ht hp
    show (if text = "" then fallbackConfig
      else match parse text with
        | none => fallbackConfig
        | some config => config) = cfg
    rw [if_neg ht, hp]

/-- Witness for C8 at mood "Angry" with an always-failing parse: every
failure shape yields the fallback. -/
theorem generate_fallback_total_witness :
    generateGameForMood "Angry" (.failure "network error") (fun _ => none)
      = fallbackConfig ∧
    generateGameForMood "Angry" (.response none) (fun _ => none) = fallbackConfig ∧
    generateGameForMood "Angry" (.response (some "")) (fun _ => none) = fallbackConfig ∧
    generateGameForMood "Angry" (.response (some "not json")) (fun _ => none)
      = fallbackConfig ∧
    generateGameForMood "Angry" (.response (some "ok")) (fun _ => some fallbackConfig)
      = fallbackConfig ∧
    fallbackConfig.assets.length = 5 :=
  ⟨(generate_fallback_total "Angry" (fun _ => none)).1 "network error",
   (generate_fallback_total "Angry" (fun _ => none)).2.1,
   (generate_fallback_total "Angry" (fun _ => none)).2.2.1,
   (generate_fallback_total "Angry" (fun _ => none)).2.2.2.1 "not json" rfl,
   (generate_fallback_total "Angry" (fun _ => some fallbackConfig)).2.2.2.2.1 "ok"
     fallbackConfig (by decide) rfl,
   (generate_fallback_total "Angry" (fun _ => none)).2.2.2.2.2.2.1⟩

/-- Claim C9: no mini-game step, and hence no whole session, ever changes
the `GameConfig` it received: the config component of every Clicker, Catcher
and Memory state is invariant under every frame, timer and input event. -/
theorem config_readonly :
    (∀ (e : ClickerEvent) (s : ClickerState), (clickerStep e s).config = s.config) ∧
    (∀ (e : CatcherEvent) (s : CatcherState), (catcherStep e s).config = s.config) ∧
    (∀ (e : MemoryEvent) (s : MemoryState), (memoryStep e s).config = s.config) ∧
    (∀ (evs : List ClickerEvent) (s : ClickerState),
      (clickerRun evs s).config = s.config) ∧
    (∀ (evs : List CatcherEvent) (s : CatcherState),
      (catcherRun evs s).config = s.config) ∧
    (∀ (evs : List MemoryEvent) (s : MemoryState),
      (memoryRun evs s).config = s.config) :=
  ⟨clickerStep_config, catcherStep_config, memoryStep_config,
   foldl_preserves _ _ (fun s e => clickerStep_config e s),
   foldl_preserves _ _ (fun s e => catcherStep_config e s),
   foldl_preserves _ _ (fun s e => memoryStep_config e s)⟩

/-- Claim C10: with an empty asset list, the Memory deck is empty and the
session never ends on its own: the game-over check requires a nonempty deck,
so no `onGameOver` call is ever made or scheduled, whatever events occur. -/
theorem memory_empty_assets_never_ends (config : GameConfig)
    (hassets : config.assets = []) (shuffled : List String)
    (hperm : shuffled.Perm (deckContents config.assets)) (evs : List MemoryEvent) :
    (memoryRun evs (memoryInit config shuffled)).cards = [] ∧
    (memoryRun evs (memoryInit config shuffled)).calls = [] ∧
    (memoryRun evs (memoryInit config shuffled)).pendingEnd = [] := by
  have hsh : shuffled = [] := by
    have hdc : deckContents config.assets = [] := by simp [deckContents, hassets]
    rw [hdc] at hperm
    exact hperm.eq_nil
  subst hsh
  exact memory_empty_run evs _ ⟨rfl, rfl, rfl⟩

/-- Witness for C10: with the empty-asset config, a session with a phantom
click, both timer events and another click still has no cards and no calls. -/
theorem memory_empty_assets_never_ends_witness :
    (memoryRun [.click 0, .click 5, .unflipFire, .endFire]
      (memoryInit emptyAssetsConfig [])).cards = [] ∧
    (memoryRun [.click 0, .click 5, .unflipFire, .endFire]
      (memoryInit emptyAssetsConfig [])).calls = [] ∧
    (memoryRun [.click 0, .click 5, .unflipFire, .endFire]
      (memoryInit emptyAssetsConfig [])).pendingEnd = [] :=
  memory_empty_assets_never_ends emptyAssetsConfig rfl [] (by decide)
    [.click 0, .click 5, .unflipFire, .endFire]

end MoodDrift
